import Mathlib

/-!
Verification of the scan-orchestration and decision logic of the
`ecr-scan-image` GitHub action (`src/index.js`, the most complete variant:
the one with ignore-list support, pagination and the `COMPLETE` sanity
check).  JavaScript numbers that can only ever hold non-negative integer
counts are modelled as `Nat`; JavaScript subtraction, which may go
negative, is modelled on `Int`.  Strings are modelled as `String` (for
identifiers and statuses) or `List Char` (for the ignore-list parser,
where the character-level operations of `trim` / `replace` / `split`
matter).
-/

namespace EcrScan

/-- The accumulator object built by `countIgnoredFindings`
(`src/index.js` line 196): lowercase keys `critical`, `high`, `medium`,
`low`, `informational`, `undefined` (here `undef`) and `total`.  The
JavaScript statement `updatedCount[severity]++` on a severity that is not
one of those keys creates a fresh key holding `NaN`; the `stray` field
records the set of such keys, in creation order. -/
structure IgnoredCounts where
  critical : Nat
  high : Nat
  medium : Nat
  low : Nat
  informational : Nat
  undef : Nat
  total : Nat
  stray : List String
deriving DecidableEq

/-- The per-severity totals read from the terminal snapshot in `main`
(`src/index.js` lines 298-303): the local variables `critical`, `high`,
`medium`, `low`, `informational` and `indeterminate` (the latter from the
`UNDEFINED` bucket), each already defaulted with `|| 0`. -/
structure SeverityCounts where
  critical : Nat
  high : Nat
  medium : Nat
  low : Nat
  informational : Nat
  indeterminate : Nat
deriving DecidableEq

/-- `src/index.js` line 305: `total = critical + high + medium + low +
informational + indeterminate`. -/
def total (c : SeverityCounts) : Nat :=
  c.critical + c.high + c.medium + c.low + c.informational + c.indeterminate

/-- The `fail_threshold` validation of `src/index.js` lines 235-243:
anything other than the five listed strings throws a configuration
error.  (The default `high` is substituted before this check.) -/
def failThresholdValid (t : String) : Bool :=
  t = "critical" || t = "high" || t = "medium" || t = "low" || t = "informational"

/-- The failing-vulnerability count of `src/index.js` lines 324-329: a
chain of conditionals on the threshold string, each summing the totals of
the levels at or above the threshold and subtracting the *single*
ignored-counts bucket of the threshold level itself.  The final branch is
the `critical` case (the source comment marks it).  JavaScript
subtraction may go negative, hence the result is an `Int`. -/
def numFailingVulns (c : SeverityCounts) (ig : IgnoredCounts) (failThreshold : String) : Int :=
  if failThreshold = "informational" then (total c : Int) - (ig.informational : Int)
  else if failThreshold = "low" then
    ((c.critical : Int) + c.high + c.medium + c.low) - (ig.low : Int)
  else if failThreshold = "medium" then
    ((c.critical : Int) + c.high + c.medium) - (ig.medium : Int)
  else if failThreshold = "high" then
    ((c.critical : Int) + c.high) - (ig.high : Int)
  else (c.critical : Int) - (ig.critical : Int)

inductive Verdict where
  | pass
  | fail
deriving DecidableEq

/-- `src/index.js` lines 331-333: the run fails (throws) exactly when
`numFailingVulns > 0`. -/
def verdict (c : SeverityCounts) (ig : IgnoredCounts) (failThreshold : String) : Verdict :=
  if 0 < numFailingVulns c ig failThreshold then Verdict.fail else Verdict.pass

/-- The five ranked severity levels, most severe first (threshold
purposes; the indeterminate bucket has no rank). -/
def sevLevels : List String := ["critical", "high", "medium", "low", "informational"]

/-- Rank of a severity level, lower is more severe; strings that are not
ranked levels are mapped past the end. -/
def rank (t : String) : Nat :=
  if t = "critical" then 0
  else if t = "high" then 1
  else if t = "medium" then 2
  else if t = "low" then 3
  else if t = "informational" then 4
  else 5

/-- The total count held in one ranked severity bucket. -/
def levelTotal (c : SeverityCounts) (level : String) : Nat :=
  if level = "critical" then c.critical
  else if level = "high" then c.high
  else if level = "medium" then c.medium
  else if level = "low" then c.low
  else if level = "informational" then c.informational
  else 0

/-- The ignored count held in one ranked severity bucket. -/
def levelIgnored (ig : IgnoredCounts) (level : String) : Nat :=
  if level = "critical" then ig.critical
  else if level = "high" then ig.high
  else if level = "medium" then ig.medium
  else if level = "low" then ig.low
  else if level = "informational" then ig.informational
  else 0

/-- The failing count exactly as the specification words it: the sum,
over every severity level from critical down to the threshold inclusive,
of that level's total count minus that level's ignored count, with the
indeterminate bucket never included. -/
def specFailingCount (c : SeverityCounts) (ig : IgnoredCounts) (t : String) : Int :=
  ((sevLevels.filter (fun level => rank level ≤ rank t)).map
    (fun level => (levelTotal c level : Int) - (levelIgnored ig level : Int))).sum

/-- The cumulative total the code actually compares against: the sum of
the total counts of every level from critical down to the threshold,
plus the indeterminate bucket when the threshold is informational
(because the code reuses the grand `total` there). -/
def cumulativeTotal (c : SeverityCounts) (t : String) : Nat :=
  ((sevLevels.filter (fun level => rank level ≤ rank t)).map (levelTotal c)).sum
  + (if t = "informational" then c.indeterminate else 0)

/-- One vulnerability finding record as consumed by the core: its
identifier (`name`, a CVE-style string) and its reported severity string
(see the `ImageScanFinding` typedef in the source). -/
structure Finding where
  name : String
  severity : String
deriving DecidableEq

/-- `src/index.js` line 287: the findings whose identifier occurs in the
ignore list, matched by exact string equality (`ignoreList.includes`). -/
def ignoredFindingsOf (findingsList : List Finding) (ignoreList : List String) : List Finding :=
  findingsList.filter (fun f => ignoreList.contains f.name)

/-- `src/index.js` line 290: the ignore-list entries whose identifier is
absent from the matched findings. -/
def missedIgnoresOf (ignoreList : List String) (matched : List Finding) : List String :=
  ignoreList.filter (fun n => !((matched.map Finding.name).contains n))

/-- Outcome of the reconciliation step, `src/index.js` lines 286-294:
either processing continues with the matched findings, or the run throws
the ignore-list-mismatch error after logging each entry of `missing`
individually. -/
inductive ReconcileResult where
  | ok (matched : List Finding)
  | mismatch (missing : List String)
deriving DecidableEq

/-- `src/index.js` lines 286-294: the mismatch error fires exactly when
the ignore-list length differs from the number of matched findings; no
other input (in particular no policy input) is consulted. -/
def reconcile (ignoreList : List String) (findingsList : List Finding) : ReconcileResult :=
  let matched := ignoredFindingsOf findingsList ignoreList
  if ignoreList.length ≠ matched.length then
    ReconcileResult.mismatch (missedIgnoresOf ignoreList matched)
  else
    ReconcileResult.ok matched

/-- JavaScript `String.prototype.toLowerCase` as used on severity
strings (`src/index.js` line 191), modelled character by character (the
severities involved are ASCII). -/
def jsToLower (s : String) : String := String.mk (s.data.map Char.toLower)

/-- The seven keys present on the accumulator object of
`countIgnoredFindings` (`src/index.js` line 196). -/
def recognizedKey (s : String) : Bool :=
  s = "critical" || s = "high" || s = "medium" || s = "low" ||
  s = "informational" || s = "undefined" || s = "total"

/-- The reducer body of `countIgnoredFindings`, `src/index.js` lines
189-195: lowercase the reported severity, execute
`updatedCount[severity]++` (which, for a key that is not on the object,
creates that key holding `NaN`; the `stray` field records those keys),
then execute `updatedCount.total++`.  Note that a severity lowercasing
to the literal string `total` therefore bumps `total` twice. -/
def tallyStep (counts : IgnoredCounts) (finding : Finding) : IgnoredCounts :=
  let severity := jsToLower finding.severity
  let updatedCount :=
    if severity = "critical" then { counts with critical := counts.critical + 1 }
    else if severity = "high" then { counts with high := counts.high + 1 }
    else if severity = "medium" then { counts with medium := counts.medium + 1 }
    else if severity = "low" then { counts with low := counts.low + 1 }
    else if severity = "informational" then
      { counts with informational := counts.informational + 1 }
    else if severity = "undefined" then { counts with undef := counts.undef + 1 }
    else if severity = "total" then { counts with total := counts.total + 1 }
    else
      { counts with stray :=
          if counts.stray.contains severity then counts.stray
          else counts.stray ++ [severity] }
  { updatedCount with total := updatedCount.total + 1 }

/-- The initial accumulator of `countIgnoredFindings`, `src/index.js`
line 196: all seven numeric keys zero, no stray keys. -/
def initialIgnoredCounts : IgnoredCounts :=
  { critical := 0, high := 0, medium := 0, low := 0, informational := 0,
    undef := 0, total := 0, stray := [] }

/-- `src/index.js` lines 187-197: tally the matched findings by severity
with a reduce. -/
def countIgnoredFindings (ignoredFindings : List Finding) : IgnoredCounts :=
  ignoredFindings.foldl tallyStep initialIgnoredCounts

/-- The tally exactly as the specification words it: normalize the
severity, increment the matching bucket and the total, and send every
record with an unrecognized severity to the indeterminate bucket rather
than dropping it. -/
def specTallyStep (counts : IgnoredCounts) (finding : Finding) : IgnoredCounts :=
  let severity := jsToLower finding.severity
  let updatedCount :=
    if severity = "critical" then { counts with critical := counts.critical + 1 }
    else if severity = "high" then { counts with high := counts.high + 1 }
    else if severity = "medium" then { counts with medium := counts.medium + 1 }
    else if severity = "low" then { counts with low := counts.low + 1 }
    else if severity = "informational" then
      { counts with informational := counts.informational + 1 }
    else { counts with undef := counts.undef + 1 }
  { updatedCount with total := updatedCount.total + 1 }

/-- The whole-list tally as the specification words it. -/
def tallyIgnoredSpec (records : List Finding) : IgnoredCounts :=
  records.foldl specTallyStep initialIgnoredCounts

/-- The `imageScanStatus` object of a scan snapshot: the raw status
string and the service-provided failure description. -/
structure ImageScanStatusInfo where
  status : String
  description : String
deriving DecidableEq

/-- The `findingSeverityCounts` object of a snapshot: the per-severity
summary buckets, each possibly absent (the code defaults them with
`|| 0`). -/
structure RawCounts where
  CRITICAL : Option Nat
  HIGH : Option Nat
  MEDIUM : Option Nat
  LOW : Option Nat
  INFORMATIONAL : Option Nat
  UNDEFINED : Option Nat
deriving DecidableEq

/-- The `imageScanFindings` object of a snapshot: summary counts plus
the (first page of the) finding list. -/
structure ImageScanFindingsInfo where
  findingSeverityCounts : RawCounts
  findings : List Finding
deriving DecidableEq

/-- One response of `describeImageScanFindings` as consumed by `main`. -/
structure ScanSnapshot where
  imageScanStatus : ImageScanStatusInfo
  imageScanFindings : ImageScanFindingsInfo
deriving DecidableEq

/-- The `|| 0` defaulting applied to each summary bucket
(`src/index.js` lines 298-303). -/
def orZero : Option Nat → Nat
  | none => 0
  | some n => n

/-- The six defaulted local count variables of `main`, `src/index.js`
lines 298-303 (`indeterminate` comes from the `UNDEFINED` bucket). -/
def severityCountsOf (raw : RawCounts) : SeverityCounts :=
  { critical := orZero raw.CRITICAL, high := orZero raw.HIGH,
    medium := orZero raw.MEDIUM, low := orZero raw.LOW,
    informational := orZero raw.INFORMATIONAL,
    indeterminate := orZero raw.UNDEFINED }

/-- How the scan-driving phase of `main` (`src/index.js` lines 247-284)
ends.  `getFindings` answers are modelled as `Option ScanSnapshot`
(`none` is the `null` returned on `ScanNotFoundException`).  Because the
source loop is unbounded while the model consumes a finite script of
responses, `outOfResponses` marks a script exhausted while the status is
still `IN_PROGRESS` (the real loop would keep polling). -/
inductive ScanResult where
  | complete (lastSnap : Option ScanSnapshot)
  | scanFailed (description : String)
  | unhandledStatus (status : String) (lastSnap : Option ScanSnapshot)
  | nullAccess
  | outOfResponses
deriving DecidableEq

/-- The code that runs once the `while` loop is left: the sanity check
of `src/index.js` lines 281-284.  `COMPLETE` lets processing continue
with the current snapshot; any other status throws an error carrying the
raw status string and the JSON of the current snapshot. -/
def exitCheck (status : String) (lastSnap : Option ScanSnapshot) : ScanResult :=
  if status = "COMPLETE" then ScanResult.complete lastSnap
  else ScanResult.unhandledStatus status lastSnap

/-- The polling `while` loop of `src/index.js` lines 267-279, driven by
a finite script of `getFindings` responses.  While the status is
`IN_PROGRESS` the next response is consumed and
`findings.imageScanStatus.status` is read from it with no null check:
a `none` response is a null-property access (a TypeError in the
source). -/
def pollLoop : List (Option ScanSnapshot) → String → Option ScanSnapshot → ScanResult
  | [], status, lastSnap =>
    if status = "IN_PROGRESS" then ScanResult.outOfResponses
    else exitCheck status lastSnap
  | response :: rest, status, lastSnap =>
    if status = "IN_PROGRESS" then
      match response with
      | none => ScanResult.nullAccess
      | some snap => pollLoop rest snap.imageScanStatus.status (some snap)
    else exitCheck status lastSnap

/-- The scan-driving phase of `main`, `src/index.js` lines 247-284,
returning the number of `startImageScan` requests issued together with
the outcome.  If the first `getFindings` answer is a snapshot, no scan
is started; a `FAILED` status throws at once with the service
description, any other status enters the loop.  If the first answer is
`null`, exactly one `startImageScan` request is issued and the loop is
entered with status `IN_PROGRESS` and no current snapshot. -/
def scanPhase (firstResponse : Option ScanSnapshot)
    (pollResponses : List (Option ScanSnapshot)) : Nat × ScanResult :=
  match firstResponse with
  | some snap =>
    if snap.imageScanStatus.status = "FAILED" then
      (0, ScanResult.scanFailed snap.imageScanStatus.description)
    else
      (0, pollLoop pollResponses snap.imageScanStatus.status (some snap))
  | none => (1, pollLoop pollResponses "IN_PROGRESS" none)

/-- An empty summary-counts object. -/
def emptyRawCounts : RawCounts := ⟨none, none, none, none, none, none⟩

/-- A snapshot whose scan status is `ACTIVE`. -/
def activeSnap : ScanSnapshot := ⟨⟨"ACTIVE", ""⟩, ⟨emptyRawCounts, []⟩⟩

/-- A snapshot whose scan status is `IN_PROGRESS`. -/
def inProgressSnap : ScanSnapshot := ⟨⟨"IN_PROGRESS", ""⟩, ⟨emptyRawCounts, []⟩⟩

/-- The whitespace class of the JavaScript regex `\s` (and of
`String.prototype.trim`): tab, line feed, vertical tab, form feed,
carriage return, space, and the Unicode space/line separators. -/
def jsIsSpace (c : Char) : Bool :=
  let n := c.toNat
  n = 9 || n = 10 || n = 11 || n = 12 || n = 13 || n = 32 ||
  n = 0xa0 || n = 0x1680 || (0x2000 ≤ n && n ≤ 0x200a) ||
  n = 0x2028 || n = 0x2029 || n = 0x202f || n = 0x205f || n = 0x3000 || n = 0xfeff

/-- JavaScript `String.prototype.trim`: strip leading and trailing
whitespace. -/
def jsTrim (s : List Char) : List Char :=
  ((s.dropWhile jsIsSpace).reverse.dropWhile jsIsSpace).reverse

/-- The character map of `.replace(/\n|\s/g, ',')` from `src/index.js`
line 220 (the alternative `\n` is already inside `\s`, so the regex
matches exactly the `\s` class): every whitespace character becomes a
comma. -/
def replCommaChar (c : Char) : Char := if jsIsSpace c then ',' else c

/-- `src/index.js` line 220 applied to a whole string. -/
def jsReplaceSeps (s : List Char) : List Char := s.map replCommaChar

/-- Splitting a character list at every separator character, keeping
empty segments, as JavaScript `String.prototype.split` does with a
single-character pattern (an empty input yields one empty segment). -/
def splitOnPred (p : Char → Bool) : List Char → List (List Char)
  | [] => [[]]
  | c :: rest =>
    if p c then [] :: splitOnPred p rest
    else
      match splitOnPred p rest with
      | [] => [[c]]
      | t :: ts => (c :: t) :: ts

/-- `.split(',')` from `src/index.js` line 221. -/
def jsSplitComma (s : List Char) : List (List Char) :=
  splitOnPred (fun c => c = ',') s

/-- `parseIgnoreList` of `src/index.js` lines 213-226 on a string input
(the array branch concerns a future input shape and is not modelled):
an empty string is falsy and yields no exclusions; otherwise trim,
replace every whitespace character by a comma, split at commas, trim
every token and drop the falsy (empty) ones. -/
def parseIgnoreList (list : List Char) : List (List Char) :=
  if list = [] then []
  else
    ((jsSplitComma (jsReplaceSeps (jsTrim list))).map jsTrim).filter
      (fun t => !t.isEmpty)

/-- The separator class of the specification: commas, whitespace and
newlines are all separators. -/
def isSepChar (c : Char) : Bool := c = ',' || jsIsSpace c

/-- Accumulator-style tokenizer: walk the input, collect the characters
of the current token (in reverse) and emit it when a separator or the
end of the input is reached; empty tokens are never emitted. -/
def tokenizeAux (p : Char → Bool) : List Char → List Char → List (List Char)
  | [], acc => if acc = [] then [] else [acc.reverse]
  | c :: rest, acc =>
    if p c then
      if acc = [] then tokenizeAux p rest []
      else acc.reverse :: tokenizeAux p rest []
    else tokenizeAux p rest (c :: acc)

/-- The ignore-list grammar exactly as the specification words it: the
non-empty tokens between separators (commas, whitespace, newlines), in
their original order. -/
def specTokens (s : List Char) : List (List Char) := tokenizeAux isSepChar s []

theorem thresholdCases (t : String) (hv : failThresholdValid t = true) :
    t = "critical" ∨ t = "high" ∨ t = "medium" ∨ t = "low" ∨ t = "informational" := by
  simpa [failThresholdValid, or_assoc] using hv

/-- C1 counterexample: with one critical finding that is itself ignored
and the threshold at high, the code counts 1 failing vulnerability and
fails, while the claimed per-level cumulative difference is 0 (the
ignored critical finding is never subtracted, because the code only
subtracts the ignored bucket of the threshold level itself). -/
theorem numFailingVulns_spec_counterexample :
    failThresholdValid "high" = true ∧
    numFailingVulns ⟨1, 0, 0, 0, 0, 0⟩ ⟨1, 0, 0, 0, 0, 0, 1, []⟩ "high" ≠
      specFailingCount ⟨1, 0, 0, 0, 0, 0⟩ ⟨1, 0, 0, 0, 0, 0, 1, []⟩ "high" ∧
    numFailingVulns ⟨1, 0, 0, 0, 0, 0⟩ ⟨1, 0, 0, 0, 0, 0, 1, []⟩ "high" = 1 ∧
    specFailingCount ⟨1, 0, 0, 0, 0, 0⟩ ⟨1, 0, 0, 0, 0, 0, 1, []⟩ "high" = 0 ∧
    verdict ⟨1, 0, 0, 0, 0, 0⟩ ⟨1, 0, 0, 0, 0, 0, 1, []⟩ "high" = Verdict.fail :=
  ⟨by decide, by decide, by decide, by decide, by decide⟩

/-- C1 (amended): for every valid threshold, the failing count equals
the cumulative total of the levels from critical down to the threshold
(with the indeterminate bucket included exactly when the threshold is
informational) minus the ignored count of the threshold bucket alone,
and the verdict is fail iff that count is strictly positive. -/
theorem numFailingVulns_cumulative (c : SeverityCounts) (ig : IgnoredCounts) (t : String)
    (hv : failThresholdValid t = true) :
    numFailingVulns c ig t = (cumulativeTotal c t : Int) - (levelIgnored ig t : Int) ∧
    (verdict c ig t = Verdict.fail ↔ 0 < numFailingVulns c ig t) := by
  constructor
  · rcases thresholdCases t hv with h | h | h | h | h <;> subst h <;>
      simp [numFailingVulns, cumulativeTotal, sevLevels, rank, levelTotal, levelIgnored,
        total] <;> ring
  · unfold verdict
    split <;> simp_all

theorem numFailingVulns_cumulative_witness :
    numFailingVulns ⟨1, 2, 3, 4, 5, 6⟩ ⟨1, 1, 1, 1, 1, 0, 5, []⟩ "medium"
      = (cumulativeTotal ⟨1, 2, 3, 4, 5, 6⟩ "medium" : Int)
        - (levelIgnored ⟨1, 1, 1, 1, 1, 0, 5, []⟩ "medium" : Int) ∧
    (verdict ⟨1, 2, 3, 4, 5, 6⟩ ⟨1, 1, 1, 1, 1, 0, 5, []⟩ "medium" = Verdict.fail ↔
      0 < numFailingVulns ⟨1, 2, 3, 4, 5, 6⟩ ⟨1, 1, 1, 1, 1, 0, 5, []⟩ "medium") :=
  numFailingVulns_cumulative ⟨1, 2, 3, 4, 5, 6⟩ ⟨1, 1, 1, 1, 1, 0, 5, []⟩ "medium" (by decide)

/-- C4 counterexample: with every ranked bucket empty and one
indeterminate finding, the failing count at threshold informational is 1
and the run fails, while removing the indeterminate finding makes it 0 —
so the indeterminate bucket does change the threshold comparison when
the threshold is informational. -/
theorem indeterminate_contributes_counterexample :
    numFailingVulns ⟨0, 0, 0, 0, 0, 1⟩ ⟨0, 0, 0, 0, 0, 0, 0, []⟩ "informational" ≠
      numFailingVulns ⟨0, 0, 0, 0, 0, 0⟩ ⟨0, 0, 0, 0, 0, 0, 0, []⟩ "informational" ∧
    numFailingVulns ⟨0, 0, 0, 0, 0, 1⟩ ⟨0, 0, 0, 0, 0, 0, 0, []⟩ "informational" = 1 ∧
    verdict ⟨0, 0, 0, 0, 0, 1⟩ ⟨0, 0, 0, 0, 0, 0, 0, []⟩ "informational" = Verdict.fail :=
  ⟨by decide, by decide, by decide⟩

/-- C4 (amended): for every valid threshold other than informational the
failing count is unchanged by the indeterminate bucket, but at threshold
informational the indeterminate count is added to the failing count in
full. -/
theorem indeterminate_threshold_dependence (c : SeverityCounts) (ig : IgnoredCounts)
    (t : String) (x : Nat) (hv : failThresholdValid t = true) :
    (t ≠ "informational" →
      numFailingVulns { c with indeterminate := x } ig t = numFailingVulns c ig t) ∧
    (t = "informational" →
      numFailingVulns { c with indeterminate := x } ig t
        = numFailingVulns { c with indeterminate := 0 } ig t + (x : Int)) := by
  rcases thresholdCases t hv with h | h | h | h | h <;> subst h <;>
    constructor <;> intro hi <;> simp_all [numFailingVulns, total] <;> ring

theorem indeterminate_threshold_dependence_witness :
    (("low" : String) ≠ "informational" →
      numFailingVulns ⟨1, 1, 1, 1, 1, 7⟩ ⟨0, 0, 0, 1, 0, 0, 1, []⟩ "low"
        = numFailingVulns ⟨1, 1, 1, 1, 1, 2⟩ ⟨0, 0, 0, 1, 0, 0, 1, []⟩ "low") ∧
    (("low" : String) = "informational" →
      numFailingVulns ⟨1, 1, 1, 1, 1, 7⟩ ⟨0, 0, 0, 1, 0, 0, 1, []⟩ "low"
        = numFailingVulns ⟨1, 1, 1, 1, 1, 0⟩ ⟨0, 0, 0, 1, 0, 0, 1, []⟩ "low" + (7 : Int)) :=
  indeterminate_threshold_dependence ⟨1, 1, 1, 1, 1, 2⟩ ⟨0, 0, 0, 1, 0, 0, 1, []⟩ "low" 7
    (by decide)

/-- C7: when every ignored bucket is bounded by the corresponding total
bucket, the failing count is monotone in the threshold rank — moving the
threshold toward less severe levels (larger rank) never decreases it,
equivalently moving it toward critical never increases it. -/
theorem numFailingVulns_monotone (c : SeverityCounts) (ig : IgnoredCounts)
    (h1 : ig.critical ≤ c.critical) (h2 : ig.high ≤ c.high) (h3 : ig.medium ≤ c.medium)
    (h4 : ig.low ≤ c.low) (h5 : ig.informational ≤ c.informational)
    (h6 : ig.undef ≤ c.indeterminate)
    (t1 t2 : String) (hv1 : failThresholdValid t1 = true)
    (hv2 : failThresholdValid t2 = true) (hr : rank t1 ≤ rank t2) :
    numFailingVulns c ig t1 ≤ numFailingVulns c ig t2 := by
  rcases thresholdCases t1 hv1 with h | h | h | h | h <;> subst h <;>
    rcases thresholdCases t2 hv2 with h | h | h | h | h <;> subst h <;>
    simp_all [numFailingVulns, rank, total] <;> omega

theorem numFailingVulns_monotone_witness :
    numFailingVulns ⟨3, 2, 0, 4, 1, 9⟩ ⟨2, 1, 0, 4, 0, 0, 7, []⟩ "high"
      ≤ numFailingVulns ⟨3, 2, 0, 4, 1, 9⟩ ⟨2, 1, 0, 4, 0, 0, 7, []⟩ "informational" :=
  numFailingVulns_monotone ⟨3, 2, 0, 4, 1, 9⟩ ⟨2, 1, 0, 4, 0, 0, 7, []⟩
    (by decide) (by decide) (by decide) (by decide) (by decide) (by decide)
    "high" "informational" (by decide) (by decide) (by decide)

/-- C5 counterexample: a pre-existing scan whose status is `ACTIVE` (a
claimed terminal-success value) does not let processing continue — the
sanity check accepts only `COMPLETE` and throws the unhandled-status
error, carrying the raw status and the snapshot. -/
theorem active_status_counterexample :
    scanPhase (some activeSnap) [] = (0, ScanResult.unhandledStatus "ACTIVE" (some activeSnap)) :=
  by decide

/-- C5 (amended): whenever the poll loop exits (the status is no longer
`IN_PROGRESS`), the status `COMPLETE` — and only it — lets processing
continue with the current snapshot; every other status produces the
fatal unhandled-status error carrying the raw status string and the
current snapshot. -/
theorem exit_status_check (status : String) (lastSnap : Option ScanSnapshot)
    (responses : List (Option ScanSnapshot)) (hexit : status ≠ "IN_PROGRESS") :
    pollLoop responses status lastSnap =
      if status = "COMPLETE" then ScanResult.complete lastSnap
      else ScanResult.unhandledStatus status lastSnap := by
  cases responses <;> simp [pollLoop, exitCheck, hexit]

theorem exit_status_check_witness :
    pollLoop [] "PENDING" (some activeSnap) =
      if ("PENDING" : String) = "COMPLETE" then ScanResult.complete (some activeSnap)
      else ScanResult.unhandledStatus "PENDING" (some activeSnap) :=
  exit_status_check "PENDING" (some activeSnap) [] (by decide)

/-- C6: one invocation issues a start-scan request exactly when the
first status query found no existing scan, and never more than one —
in particular the poll loop itself never starts a scan, so the count
does not depend on the polled responses. -/
theorem startScan_at_most_once (firstResponse : Option ScanSnapshot)
    (pollResponses : List (Option ScanSnapshot)) :
    (scanPhase firstResponse pollResponses).1
      = (if firstResponse.isSome then 0 else 1) ∧
    (scanPhase firstResponse pollResponses).1 ≤ 1 := by
  cases firstResponse with
  | none => simp [scanPhase]
  | some snap =>
    constructor
    · simp only [scanPhase, Option.isSome_some, if_true]
      split <;> rfl
    · simp only [scanPhase]
      split <;> simp

theorem pollLoop_ne_nullAccess (responses : List (Option ScanSnapshot))
    (hsome : ∀ r ∈ responses, r ≠ none) (status : String) (lastSnap : Option ScanSnapshot) :
    pollLoop responses status lastSnap ≠ ScanResult.nullAccess := by
  induction responses generalizing status lastSnap with
  | nil => simp only [pollLoop]; split <;> simp [exitCheck] <;> split <;> simp
  | cons r rest ih =>
    simp only [pollLoop]
    split
    · match r, hsome r (by simp) with
      | some snap, _ =>
        exact ih (fun x hx => hsome x (by simp [hx])) _ _
    · simp only [exitCheck]; split <;> simp

/-- C10: the poll loop reads the status off each fetched snapshot with
no null check, so it avoids the null-property access exactly under the
precondition that every poll response is a snapshot; and on the concrete
run where the scan is started and the second poll reports
scan-not-found (`null`), the invocation dies with the null access
instead of any specified error kind. -/
theorem pollLoop_null_safety (responses : List (Option ScanSnapshot))
    (status : String) (lastSnap : Option ScanSnapshot)
    (hsome : ∀ r ∈ responses, r ≠ none) :
    pollLoop responses status lastSnap ≠ ScanResult.nullAccess ∧
    scanPhase none [some inProgressSnap, none] = (1, ScanResult.nullAccess) :=
  ⟨pollLoop_ne_nullAccess responses hsome status lastSnap, by decide⟩

theorem pollLoop_null_safety_witness :
    pollLoop [some inProgressSnap, some activeSnap] "IN_PROGRESS" none
        ≠ ScanResult.nullAccess ∧
    scanPhase none [some inProgressSnap, none] = (1, ScanResult.nullAccess) :=
  pollLoop_null_safety [some inProgressSnap, some activeSnap] "IN_PROGRESS" none (by decide)

/-- C3, at its failing input: an ignore-list identifier absent from the
findings always produces the fatal mismatch outcome — the reconciliation
code consults no policy input at all (`error_missed_ignores` is declared
in `action.yml` but never read), so the claimed non-fatal warn mode
cannot occur. -/
theorem missed_ignore_always_fatal :
    reconcile ["CVE-2099-0001"] [] = ReconcileResult.mismatch ["CVE-2099-0001"] := by decide

theorem matched_length (ignoreList : List String) (findingsList : List Finding)
    (hnod : ignoreList.Nodup) (hnames : (findingsList.map Finding.name).Nodup)
    (hall : ∀ i ∈ ignoreList, i ∈ findingsList.map Finding.name) :
    (ignoredFindingsOf findingsList ignoreList).length = ignoreList.length := by
  have hmap : (ignoredFindingsOf findingsList ignoreList).map Finding.name
      = (findingsList.map Finding.name).filter (fun n => ignoreList.contains n) := by
    rw [ignoredFindingsOf, List.filter_map]
    rfl
  have hlen : (ignoredFindingsOf findingsList ignoreList).length
      = ((findingsList.map Finding.name).filter (fun n => ignoreList.contains n)).length := by
    rw [← hmap, List.length_map]
  rw [hlen]
  have hperm : ((findingsList.map Finding.name).filter
      (fun n => ignoreList.contains n)).Perm ignoreList := by
    apply List.perm_of_nodup_nodup_toFinset_eq (hnames.filter _) hnod
    ext x
    simp only [List.mem_toFinset, List.mem_filter, List.elem_iff]
    exact ⟨fun h => h.2, fun h => ⟨hall x h, h⟩⟩
  exact hperm.length_eq

/-- C2 counterexample: an ignore list whose (duplicated) identifier does
appear among the findings still trips the length-based reconciliation
check — the run throws the mismatch error, and it even reports an empty
list of missing identifiers. -/
theorem reconcile_complete_counterexample :
    (∀ i ∈ ["CVE-2020-0001", "CVE-2020-0001"],
      ∃ f ∈ [(⟨"CVE-2020-0001", "HIGH"⟩ : Finding)], f.name = i) ∧
    reconcile ["CVE-2020-0001", "CVE-2020-0001"] [⟨"CVE-2020-0001", "HIGH"⟩]
      = ReconcileResult.mismatch [] :=
  ⟨by decide, by decide⟩

/-- C2 (amended): when the ignore-list identifiers are pairwise distinct
and the finding names are pairwise distinct, an ignore list all of whose
identifiers appear among the finding names reconciles cleanly: the
matched set is accepted, no error fires, and the set of missing
identifiers is empty. -/
theorem reconcile_complete (ignoreList : List String) (findingsList : List Finding)
    (hnod : ignoreList.Nodup) (hnames : (findingsList.map Finding.name).Nodup)
    (hall : ∀ i ∈ ignoreList, i ∈ findingsList.map Finding.name) :
    reconcile ignoreList findingsList
      = ReconcileResult.ok (ignoredFindingsOf findingsList ignoreList) ∧
    missedIgnoresOf ignoreList (ignoredFindingsOf findingsList ignoreList) = [] := by
  have hlen := matched_length ignoreList findingsList hnod hnames hall
  constructor
  · simp [reconcile, hlen]
  · rw [missedIgnoresOf, List.filter_eq_nil_iff]
    intro n hn
    simp only [Bool.not_eq_true, Bool.not_eq_true']
    have hmem : n ∈ (ignoredFindingsOf findingsList ignoreList).map Finding.name := by
      rcases List.mem_map.mp (hall n hn) with ⟨f, hf, hfn⟩
      refine List.mem_map.mpr ⟨f, List.mem_filter.mpr ⟨hf, ?_⟩, hfn⟩
      simp [List.elem_iff, hfn, hn]
    simpa [List.elem_iff] using hmem

theorem reconcile_complete_witness :
    ([("CVE-2016-0001" : String), "CVE-2016-0002"].Nodup) ∧
    reconcile ["CVE-2016-0001", "CVE-2016-0002"]
        [⟨"CVE-2016-0001", "HIGH"⟩, ⟨"CVE-2016-0002", "LOW"⟩, ⟨"CVE-2016-0003", "LOW"⟩]
      = ReconcileResult.ok (ignoredFindingsOf
          [⟨"CVE-2016-0001", "HIGH"⟩, ⟨"CVE-2016-0002", "LOW"⟩, ⟨"CVE-2016-0003", "LOW"⟩]
          ["CVE-2016-0001", "CVE-2016-0002"]) ∧
    missedIgnoresOf ["CVE-2016-0001", "CVE-2016-0002"]
        (ignoredFindingsOf
          [⟨"CVE-2016-0001", "HIGH"⟩, ⟨"CVE-2016-0002", "LOW"⟩, ⟨"CVE-2016-0003", "LOW"⟩]
          ["CVE-2016-0001", "CVE-2016-0002"]) = [] := by
  refine ⟨by decide, ?_, ?_⟩
  · exact (reconcile_complete _ _ (by decide) (by decide) (by decide)).1
  · exact (reconcile_complete _ _ (by decide) (by decide) (by decide)).2

theorem recognizedKeyCases (s : String) (h : recognizedKey s = true) :
    s = "critical" ∨ s = "high" ∨ s = "medium" ∨ s = "low" ∨ s = "informational" ∨
    s = "undefined" ∨ s = "total" := by
  simpa [recognizedKey, or_assoc] using h

theorem recognizedKeyNe (s : String) (h : recognizedKey s = false) :
    s ≠ "critical" ∧ s ≠ "high" ∧ s ≠ "medium" ∧ s ≠ "low" ∧ s ≠ "informational" ∧
    s ≠ "undefined" ∧ s ≠ "total" := by
  simpa [recognizedKey, not_or, and_assoc] using h

theorem tallyStep_spec (prev : IgnoredCounts) (f : Finding) :
    (tallyStep prev f).critical
      = prev.critical + (if jsToLower f.severity = "critical" then 1 else 0) ∧
    (tallyStep prev f).high
      = prev.high + (if jsToLower f.severity = "high" then 1 else 0) ∧
    (tallyStep prev f).medium
      = prev.medium + (if jsToLower f.severity = "medium" then 1 else 0) ∧
    (tallyStep prev f).low
      = prev.low + (if jsToLower f.severity = "low" then 1 else 0) ∧
    (tallyStep prev f).informational
      = prev.informational + (if jsToLower f.severity = "informational" then 1 else 0) ∧
    (tallyStep prev f).undef
      = prev.undef + (if jsToLower f.severity = "undefined" then 1 else 0) ∧
    (tallyStep prev f).total
      = prev.total + (if jsToLower f.severity = "total" then 2 else 1) ∧
    (tallyStep prev f).stray
      = (if recognizedKey (jsToLower f.severity) then prev.stray
         else if prev.stray.contains (jsToLower f.severity) then prev.stray
         else prev.stray ++ [jsToLower f.severity]) := by
  rcases Bool.eq_false_or_eq_true (recognizedKey (jsToLower f.severity)) with hrec | hrec
  · rcases recognizedKeyCases _ hrec with h | h | h | h | h | h | h <;>
      simp [tallyStep, recognizedKey, h]
  · obtain ⟨n1, n2, n3, n4, n5, n6, n7⟩ := recognizedKeyNe _ hrec
    by_cases hc : prev.stray.contains (jsToLower f.severity) <;>
      simp [tallyStep, n1, n2, n3, n4, n5, n6, n7, hrec, hc]

/-- C8 counterexample: an ignored finding whose severity is the
unrecognized string `UNKNOWN` does not increment the indeterminate
(`undefined`) bucket as claimed — the tally leaves that bucket at zero,
still bumps the total, and creates a stray `NaN` key `unknown` on the
accumulator instead. -/
theorem tally_unrecognized_counterexample :
    (countIgnoredFindings [⟨"CVE-2020-9999", "UNKNOWN"⟩]).undef ≠
      (tallyIgnoredSpec [⟨"CVE-2020-9999", "UNKNOWN"⟩]).undef ∧
    (countIgnoredFindings [⟨"CVE-2020-9999", "UNKNOWN"⟩]).undef = 0 ∧
    (tallyIgnoredSpec [⟨"CVE-2020-9999", "UNKNOWN"⟩]).undef = 1 ∧
    (countIgnoredFindings [⟨"CVE-2020-9999", "UNKNOWN"⟩]).total = 1 ∧
    (countIgnoredFindings [⟨"CVE-2020-9999", "UNKNOWN"⟩]).stray = ["unknown"] :=
  ⟨by decide, by decide, by decide, by decide, by decide⟩

/-- C8 (amended): appending one record to the tallied list increments
the bucket whose key equals the lowercased severity and increments the
total; a record whose lowercased severity is the literal key `total`
bumps the total twice; and a record whose lowercased severity is not one
of the seven accumulator keys changes no severity bucket at all — in
particular it does not reach the indeterminate bucket, which only counts
severities lowercasing exactly to `undefined` — it merely bumps the
total and leaves a stray `NaN` key. -/
theorem tally_increments (fs : List Finding) (f : Finding) :
    (countIgnoredFindings (fs ++ [f])).critical
      = (countIgnoredFindings fs).critical
        + (if jsToLower f.severity = "critical" then 1 else 0) ∧
    (countIgnoredFindings (fs ++ [f])).high
      = (countIgnoredFindings fs).high
        + (if jsToLower f.severity = "high" then 1 else 0) ∧
    (countIgnoredFindings (fs ++ [f])).medium
      = (countIgnoredFindings fs).medium
        + (if jsToLower f.severity = "medium" then 1 else 0) ∧
    (countIgnoredFindings (fs ++ [f])).low
      = (countIgnoredFindings fs).low
        + (if jsToLower f.severity = "low" then 1 else 0) ∧
    (countIgnoredFindings (fs ++ [f])).informational
      = (countIgnoredFindings fs).informational
        + (if jsToLower f.severity = "informational" then 1 else 0) ∧
    (countIgnoredFindings (fs ++ [f])).undef
      = (countIgnoredFindings fs).undef
        + (if jsToLower f.severity = "undefined" then 1 else 0) ∧
    (countIgnoredFindings (fs ++ [f])).total
      = (countIgnoredFindings fs).total
        + (if jsToLower f.severity = "total" then 2 else 1) ∧
    (countIgnoredFindings (fs ++ [f])).stray
      = (if recognizedKey (jsToLower f.severity) then (countIgnoredFindings fs).stray
         else if (countIgnoredFindings fs).stray.contains (jsToLower f.severity) then
           (countIgnoredFindings fs).stray
         else (countIgnoredFindings fs).stray ++ [jsToLower f.severity]) := by
  have hfold : countIgnoredFindings (fs ++ [f]) = tallyStep (countIgnoredFindings fs) f := by
    simp [countIgnoredFindings, List.foldl_append]
  rw [hfold]
  exact tallyStep_spec (countIgnoredFindings fs) f


theorem splitOnPred_ne_nil (p : Char → Bool) (s : List Char) : splitOnPred p s ≠ [] := by
  cases s with
  | nil => simp [splitOnPred]
  | cons c rest =>
    simp only [splitOnPred]
    split
    · simp
    · split <;> simp

theorem tokenizeAux_split (p : Char → Bool) (s : List Char) (acc t : List Char)
    (ts : List (List Char)) (hsplit : splitOnPred p s = t :: ts) :
    tokenizeAux p s acc = ((acc.reverse ++ t) :: ts).filter (fun x => !x.isEmpty) := by
  induction s generalizing acc t ts with
  | nil =>
    simp only [splitOnPred] at hsplit
    cases hsplit
    simp only [tokenizeAux, List.filter_cons, List.append_nil]
    split <;> rename_i hacc
    · subst hacc
      simp
    · have hne : acc.reverse.isEmpty = false :=
        List.isEmpty_eq_false.mpr (by simpa using hacc)
      simp [hne]
  | cons c rest ih =>
    simp only [splitOnPred] at hsplit
    by_cases hc : p c
    · rw [if_pos hc] at hsplit
      cases hsplit
      simp only [tokenizeAux, hc, if_true]
      rcases hrest : splitOnPred p rest with _ | ⟨t2, ts2⟩
      · exact absurd hrest (splitOnPred_ne_nil p rest)
      · have h1 := ih [] t2 ts2 hrest
        split <;> rename_i hacc
        · subst hacc
          simpa using h1
        · have hne : acc.reverse.isEmpty = false :=
            List.isEmpty_eq_false.mpr (by simpa using hacc)
          rw [h1]
          simp [List.filter_cons, hne]
    · rw [if_neg hc] at hsplit
      rcases hrest : splitOnPred p rest with _ | ⟨t2, ts2⟩
      · exact absurd hrest (splitOnPred_ne_nil p rest)
      · rw [hrest] at hsplit
        cases hsplit
        simp only [tokenizeAux, hc, if_false]
        rw [ih (c :: acc) t2 ts hrest]
        simp



theorem isSepChar_comma : isSepChar ',' = true := by decide

theorem replCommaChar_not_space (c : Char) : jsIsSpace (replCommaChar c) = false := by
  rw [replCommaChar]
  split <;> rename_i h
  · decide
  · simpa using h

theorem isSepChar_true_elim (c : Char) (h : isSepChar c = true) :
    c = ',' ∨ jsIsSpace c = true := by
  simpa [isSepChar] using h

theorem isSepChar_false_elim (c : Char) (h : isSepChar c = false) :
    ¬(c = ',') ∧ jsIsSpace c = false := by
  simpa [isSepChar, not_or] using h

theorem replCommaChar_eq_comma (c : Char) (h : isSepChar c = true) : replCommaChar c = ',' := by
  rcases isSepChar_true_elim c h with h1 | h1
  · subst h1
    decide
  · simp [replCommaChar, h1]

theorem replCommaChar_eq_self (c : Char) (h : isSepChar c = false) : replCommaChar c = c := by
  simp [replCommaChar, (isSepChar_false_elim c h).2]

theorem split_repl (s : List Char) :
    splitOnPred (fun c => c = ',') (jsReplaceSeps s)
      = (splitOnPred isSepChar s).map (List.map replCommaChar) := by
  induction s with
  | nil => simp [splitOnPred, jsReplaceSeps]
  | cons c rest ih =>
    simp only [jsReplaceSeps, List.map_cons] at ih ⊢
    by_cases hc : isSepChar c = true
    · have h1 := replCommaChar_eq_comma c hc
      simp only [h1, splitOnPred, hc, if_true, decide_eq_true_eq]
      simp [ih]
    · have hcf : isSepChar c = false := by simpa using hc
      have h2 := replCommaChar_eq_self c hcf
      have hnc : (decide (c = ',') : Bool) = false :=
        decide_eq_false (isSepChar_false_elim c hcf).1
      simp only [h2, splitOnPred, hcf, hnc, Bool.false_eq_true, if_false]
      rcases hrest : splitOnPred isSepChar rest with _ | ⟨t2, ts2⟩
      · exact absurd hrest (splitOnPred_ne_nil _ rest)
      · rw [ih, hrest]
        simp [h2]



theorem splitOnPred_token_chars (p : Char → Bool) (s : List Char) (t : List Char)
    (ht : t ∈ splitOnPred p s) : ∀ c ∈ t, c ∈ s ∧ p c = false := by
  induction s generalizing t with
  | nil =>
    simp only [splitOnPred, List.mem_singleton] at ht
    subst ht
    simp
  | cons d rest ih =>
    simp only [splitOnPred] at ht
    by_cases hd : p d
    · rw [if_pos hd] at ht
      rcases List.mem_cons.mp ht with h | h
      · subst h
        simp
      · intro c hc
        have := ih t h c hc
        exact ⟨List.mem_cons_of_mem d this.1, this.2⟩
    · rw [if_neg hd] at ht
      rcases hrest : splitOnPred p rest with _ | ⟨t2, ts2⟩
      · exact absurd hrest (splitOnPred_ne_nil p rest)
      · rw [hrest] at ht
        rcases List.mem_cons.mp ht with h | h
        · subst h
          intro c hc
          rcases List.mem_cons.mp hc with h2 | h2
          · subst h2
            exact ⟨List.mem_cons_self c rest, by simpa using hd⟩
          · have := ih t2 (by rw [hrest]; exact List.mem_cons_self t2 ts2) c h2
            exact ⟨List.mem_cons_of_mem d this.1, this.2⟩
        · intro c hc
          have h3 := ih t (by rw [hrest]; exact List.mem_cons_of_mem t2 h) c hc
          exact ⟨List.mem_cons_of_mem d h3.1, h3.2⟩

theorem dropWhile_eq_self_of_not (q : Char → Bool) (t : List Char)
    (h : ∀ c ∈ t, q c = false) : t.dropWhile q = t := by
  cases t with
  | nil => rfl
  | cons c rest => simp [List.dropWhile, h c (List.mem_cons_self c rest)]

theorem jsTrim_eq_self (t : List Char) (h : ∀ c ∈ t, jsIsSpace c = false) : jsTrim t = t := by
  rw [jsTrim, dropWhile_eq_self_of_not jsIsSpace t h,
    dropWhile_eq_self_of_not jsIsSpace t.reverse (fun c hc => h c (List.mem_reverse.mp hc)),
    List.reverse_reverse]

theorem tokenizeAux_all_sep (p : Char → Bool) (u : List Char) (h : ∀ c ∈ u, p c = true)
    (acc : List Char) : tokenizeAux p u acc = if acc = [] then [] else [acc.reverse] := by
  induction u generalizing acc with
  | nil => rfl
  | cons c rest ih =>
    simp only [tokenizeAux, h c (List.mem_cons_self c rest), if_true]
    have hrest := ih (fun x hx => h x (List.mem_cons_of_mem c hx))
    split <;> rename_i hacc
    · exact hrest []
    · rw [hrest []]
      simp

theorem tokenizeAux_append_sep (p : Char → Bool) (u : List Char) (h : ∀ c ∈ u, p c = true)
    (s : List Char) (acc : List Char) :
    tokenizeAux p (s ++ u) acc = tokenizeAux p s acc := by
  induction s generalizing acc with
  | nil =>
    simp only [List.nil_append, tokenizeAux]
    exact tokenizeAux_all_sep p u h acc
  | cons c rest ih =>
    simp only [List.cons_append, tokenizeAux]
    split
    · split
      · exact ih []
      · exact congrArg (fun l => acc.reverse :: l) (ih [])
    · exact ih (c :: acc)

theorem tokenizeAux_dropWhile_space (s : List Char) :
    tokenizeAux isSepChar (s.dropWhile jsIsSpace) [] = tokenizeAux isSepChar s [] := by
  induction s with
  | nil => rfl
  | cons c rest ih =>
    by_cases hc : jsIsSpace c
    · have hsep : isSepChar c = true := by simp [isSepChar, hc]
      rw [List.dropWhile_cons_of_pos (by simpa using hc)]
      rw [ih]
      simp [tokenizeAux, hsep]
    · rw [List.dropWhile_cons_of_neg (by simpa using hc)]



theorem map_tokens_id (s1 : List Char) (f : List Char → List Char)
    (hf : ∀ t, (∀ c ∈ t, isSepChar c = false) → f t = t) :
    (splitOnPred isSepChar s1).map f = splitOnPred isSepChar s1 := by
  have h : ∀ t ∈ splitOnPred isSepChar s1, f t = t := by
    intro t ht
    exact hf t (fun c hc => (splitOnPred_token_chars isSepChar s1 t ht c hc).2)
  calc (splitOnPred isSepChar s1).map f
      = (splitOnPred isSepChar s1).map id := List.map_eq_map_iff.mpr h
    _ = splitOnPred isSepChar s1 := List.map_id _

theorem parse_after_trim (s1 : List Char) :
    ((jsSplitComma (jsReplaceSeps s1)).map jsTrim).filter (fun t => !t.isEmpty)
      = tokenizeAux isSepChar s1 [] := by
  have h1 : jsSplitComma (jsReplaceSeps s1) = splitOnPred isSepChar s1 := by
    rw [jsSplitComma, split_repl]
    exact map_tokens_id s1 (List.map replCommaChar)
      (fun t ht => by
        calc t.map replCommaChar = t.map id :=
              List.map_eq_map_iff.mpr (fun c hc => replCommaChar_eq_self c (ht c hc))
          _ = t := List.map_id t)
  rw [h1]
  have h2 : (splitOnPred isSepChar s1).map jsTrim = splitOnPred isSepChar s1 :=
    map_tokens_id s1 jsTrim
      (fun t ht => jsTrim_eq_self t (fun c hc => (isSepChar_false_elim c (ht c hc)).2))
  rw [h2]
  rcases hsplit : splitOnPred isSepChar s1 with _ | ⟨t, ts⟩
  · exact absurd hsplit (splitOnPred_ne_nil _ s1)
  · rw [tokenizeAux_split isSepChar s1 [] t ts hsplit]
    simp

theorem specTokens_trim (s : List Char) : specTokens (jsTrim s) = specTokens s := by
  rw [specTokens, specTokens]
  set front := s.dropWhile jsIsSpace with hfront
  have hdecomp : front = jsTrim s ++ (front.reverse.takeWhile jsIsSpace).reverse := by
    rw [jsTrim, ← hfront]
    calc front = front.reverse.reverse := (List.reverse_reverse front).symm
      _ = (front.reverse.takeWhile jsIsSpace ++ front.reverse.dropWhile jsIsSpace).reverse := by
          rw [List.takeWhile_append_dropWhile]
      _ = (front.reverse.dropWhile jsIsSpace).reverse
            ++ (front.reverse.takeWhile jsIsSpace).reverse := List.reverse_append _ _
  have hu : ∀ c ∈ (front.reverse.takeWhile jsIsSpace).reverse, isSepChar c = true := by
    intro c hc
    have := List.mem_takeWhile_imp (List.mem_reverse.mp hc)
    simp [isSepChar, this]
  calc tokenizeAux isSepChar (jsTrim s) []
      = tokenizeAux isSepChar (jsTrim s ++ (front.reverse.takeWhile jsIsSpace).reverse) [] :=
        (tokenizeAux_append_sep isSepChar _ hu (jsTrim s) []).symm
    _ = tokenizeAux isSepChar front [] := by rw [← hdecomp]
    _ = tokenizeAux isSepChar s [] := by
        rw [hfront]
        exact tokenizeAux_dropWhile_space s

/-- C9: for every input string, `parseIgnoreList` returns exactly the
non-empty tokens delimited by commas, whitespace or newlines, trimmed
and in their original order; and the empty (absent) input yields the
empty list of exclusions. -/
theorem parseIgnoreList_correct (s : List Char) :
    parseIgnoreList s = specTokens s ∧ parseIgnoreList [] = [] := by
  refine ⟨?_, rfl⟩
  by_cases hs : s = []
  · subst hs
    rfl
  · rw [parseIgnoreList, if_neg hs, parse_after_trim (jsTrim s)]
    exact specTokens_trim s

end EcrScan
